import Mathlib

/-!
Verification of the temporal feature / labeling engine of the
F1-Incident-Risk-Forecasting (OpenF1) repository.

The embedding is shallow: pandas DataFrames become lists of rows,
timestamps are integers (seconds), feature values, probabilities and
rates are rationals, and a frame's timestamp-column dtype is carried as
a Boolean flag.  Fallible functions (those that `raise` in Python)
return `Except String`.

Source files embedded here:
  * `src/features/rolling_utils.py`   — rolling_count / rolling_agg / rolling_unique_count
  * `src/features/asof_join.py`       — asof_join / asof_join_by_session
  * `src/build_timeline/labeler.py`   — assign_labels
  * `src/build_timeline/label_detector.py` — _is_sc_start / detect_sc_events
  * `src/eval/alert_analysis.py`      — analyze_alert_policy
-/

namespace F1

/-! ## Generic helpers: sorting by a key (models `DataFrame.sort_values`) -/

/-- Insert an element into a list that is ordered by `key`. -/
def insertByKey {α β : Type} [LinearOrder β] (key : α → β) (x : α) : List α → List α
  | [] => [x]
  | y :: ys => if key x ≤ key y then x :: y :: ys else y :: insertByKey key x ys

/-- Sort a list by a key.  Models `DataFrame.sort_values(col)`; the claims
proved below never depend on the order of rows whose keys tie, so the
choice of sorting algorithm is immaterial. -/
def sortByKey {α β : Type} [LinearOrder β] (key : α → β) : List α → List α
  | [] => []
  | x :: xs => insertByKey key x (sortByKey key xs)

/-- First-occurrence deduplication; models `pandas.Series.unique()`. -/
def uniqueFirst {α : Type} [DecidableEq α] : List α → List α
  | [] => []
  | x :: xs => x :: uniqueFirst (xs.filter (fun y => decide (y ≠ x)))
termination_by l => l.length
decreasing_by
  simp only [List.length_cons]
  exact Nat.lt_succ_of_le (List.length_filter_le _ _)

/-- Python's `x or default` applied to an optional integer argument:
`None` and `0` are both falsy and fall back to the default
(`labeler.py`, lines 41-42). -/
def pyOr (x : Option Int) (d : Int) : Int :=
  match x with
  | none => d
  | some v => if v = 0 then d else v

/-! ## Rolling-window primitives (`src/features/rolling_utils.py`)

Each primitive walks the timeline and, at query timestamp `t`, selects
the source rows whose timestamp lies in the half-open interval
`(t - window, t]` — the mask `(event_arr > lo) & (event_arr <= t)` of the
source. -/

/-- Membership of a source timestamp in the trailing window `(t - w, t]`. -/
def inWindow (t w e : Int) : Bool := decide (t - w < e) && decide (e ≤ t)

/-- Count of events in `(t - w, t]` at each timeline timestamp
(`rolling_count`). -/
def rolling_count (timeline events : List Int) (w : Int) : List Nat :=
  timeline.map (fun t => (events.filter (fun e => inWindow t w e)).length)

/-- Values of the source rows falling in the trailing window `(t - w, t]`,
in source order: the selection `values[mask]` shared by `rolling_agg` and
`rolling_unique_count`. -/
def windowValues {γ : Type} (t w : Int) (events : List (Int × γ)) : List γ :=
  (events.filter (fun e => inWindow t w e.1)).map (fun e => e.2)

/-- Reducer `np.nanmean` on a (NaN-free) nonempty value list. -/
def nanmean (l : List ℚ) : ℚ := l.sum / (l.length : ℚ)

/-- Reducer `np.nanmax`; only ever applied to nonempty lists (the code
guards with `mask.any()`), so the `[]` case is junk. -/
def nanmax : List ℚ → ℚ
  | [] => 0
  | x :: xs => xs.foldl max x

/-- Reducer `np.nanmin`; only ever applied to nonempty lists. -/
def nanmin : List ℚ → ℚ
  | [] => 0
  | x :: xs => xs.foldl min x

/-- Reducer `np.nansum`. -/
def nansum (l : List ℚ) : ℚ := l.sum

/-- Reducer `np.nanstd`.  The source computes the square root of the
population variance in floating point; the square root of a rational is
irrational in general, so the model carries the population variance
itself.  Every claim settled here depends only on *whether* a reducer
produces a value on a window (and on which rows feed it), never on the
magnitude of the std reducer, so this is a faithful carrier for those
claims. -/
def nanstd (l : List ℚ) : ℚ :=
  ((l.map (fun x => (x - nanmean l) ^ 2)).sum) / (l.length : ℚ)

/-- The reducer dispatch table `agg_map` of `rolling_agg`. -/
def agg_map : List (String × (List ℚ → ℚ)) :=
  [("mean", nanmean), ("max", nanmax), ("min", nanmin), ("std", nanstd), ("sum", nansum)]

/-- Rolling aggregation over a trailing window (`rolling_agg`).  An
unknown reducer name raises `ValueError`; a window containing no source
row yields NaN (modelled as `none`), the code initialising the output
with `np.full(.., np.nan)` and only overwriting cells whose mask is
nonempty. -/
def rolling_agg (timeline : List Int) (events : List (Int × ℚ)) (w : Int)
    (aggFn : String) : Except String (List (Option ℚ)) :=
  match agg_map.lookup aggFn with
  | none => Except.error ("Unknown agg_fn " ++ aggFn)
  | some fn => Except.ok (timeline.map (fun t =>
      let vals := windowValues t w events
      if vals.isEmpty then none else some (fn vals)))

/-- Count of distinct values among the source rows in the trailing window
(`rolling_unique_count`, via `len(set(cat_values[mask]))`). -/
def rolling_unique_count {ν : Type} [DecidableEq ν] (timeline : List Int)
    (events : List (Int × ν)) (w : Int) : List Nat :=
  timeline.map (fun t => ((windowValues t w events).dedup).length)

/-! ## Label assignment (`src/build_timeline/labeler.py`)

`assign_labels` walks the timeline grid; at each grid timestamp `t` it
filters the event list to `event_ts[event_ts > t]` and takes element
`[0]` — the first *in list order* among those strictly after `t` (the
earliest one whenever the event list is sorted, which is what
`detect_sc_events` returns). -/

/-- First event strictly after `t`, in list order
(`event_ts[event_ts > t]` followed by `[0]`). -/
def firstAfter (t : Int) (events : List Int) : Option Int :=
  (events.filter (fun e => decide (t < e))).head?

/-- Label assignment (`assign_labels`).  A row of the result is
`(timestamp, y_sc_5m, time_to_sc_seconds)`.  The defaults applied to
falsy arguments are the configured
`prediction_horizon_seconds = 300` and `time_to_event_cap = 1800`. -/
def assign_labels (timeline events : List Int)
    (horizon_seconds cap_seconds : Option Int) : List (Int × Int × Int) :=
  let horizon := pyOr horizon_seconds 300
  let cap := pyOr cap_seconds 1800
  if events.isEmpty then timeline.map (fun t => (t, 0, cap))
  else timeline.map (fun t =>
    match firstAfter t events with
    | none => (t, 0, cap)
    | some e => (t, if e - t ≤ horizon then 1 else 0, min (e - t) cap))

/-! ## Event detector (`src/build_timeline/label_detector.py`)

The two regexes are embedded over character lists: `\b` is the ASCII
word boundary (every keyword involved is ASCII), `re.IGNORECASE` is
realised by uppercasing the subject (the patterns are already
uppercase), and `.*` between the two groups of `SC_KEYWORDS` allows any
gap between the end of the first match and the start of the second. -/

/-- ASCII word character, the `\w` class of the word boundary `\b`. -/
def isWordChar (c : Char) : Bool := c.isAlphanum || c == '_'

/-- Uppercased character list of a string (`re.IGNORECASE` against
uppercase patterns). -/
def upperChars (s : String) : List Char := s.toList.map Char.toUpper

/-- Occurrence of `pat` in `s` starting at position `i`, with a word
boundary on each side. -/
def matchWordAt (s pat : List Char) (i : Nat) : Bool :=
  ((s.drop i).take pat.length == pat)
  && (i == 0 || !isWordChar (s.getD (i - 1) ' '))
  && (i + pat.length == s.length || !isWordChar (s.getD (i + pat.length) ' '))

/-- Does `\b pat \b` match anywhere in `s`? -/
def searchWord (s pat : List Char) : Bool :=
  (List.range (s.length + 1)).any (fun i => matchWordAt s pat i)

/-- Alternatives of `END_KEYWORDS`:
`\b(ENDING|WITHDRAWN|IN THIS LAP|RESUME|CLEAR)\b`. -/
def endKeywordList : List (List Char) :=
  ["ENDING".toList, "WITHDRAWN".toList, "IN THIS LAP".toList,
   "RESUME".toList, "CLEAR".toList]

/-- `END_KEYWORDS.search(message)`. -/
def endKeywordsSearch (message : String) : Bool :=
  endKeywordList.any (fun pat => searchWord (upperChars message) pat)

/-- First group of `SC_KEYWORDS`: `SAFETY CAR|VIRTUAL SAFETY CAR|VSC`. -/
def scPhraseList : List (List Char) :=
  ["SAFETY CAR".toList, "VIRTUAL SAFETY CAR".toList, "VSC".toList]

/-- Second group of `SC_KEYWORDS`: `DEPLOYED|OUT|PERIOD`. -/
def scActionList : List (List Char) :=
  ["DEPLOYED".toList, "OUT".toList, "PERIOD".toList]

/-- `SC_KEYWORDS.search(message)`: a phrase alternative matches with word
boundaries at some position `i`, and an action alternative matches with
word boundaries at some position `j` at or after the end of the phrase
(the `.*` in between consumes zero or more characters). -/
def scKeywordsSearch (message : String) : Bool :=
  let s := upperChars message
  (List.range (s.length + 1)).any (fun i =>
    scPhraseList.any (fun p1 =>
      matchWordAt s p1 i
      && (List.range (s.length + 1)).any (fun j =>
        decide (i + p1.length ≤ j)
        && scActionList.any (fun p2 => matchWordAt s p2 j))))

/-- The structured-field vocabulary `SC_CATEGORIES` (exact,
case-sensitive membership). -/
def SC_CATEGORIES : List String := ["SafetyCar", "Vsc", "VirtualSafetyCar"]

/-- The structured-field vocabulary `SC_FLAGS`. -/
def SC_FLAGS : List String := ["SC", "VSC", "SAFETY CAR", "VIRTUAL SAFETY CAR"]

/-- A race-control record: date plus the three text fields read by the
classifier (Python's `str(row.get(..) or "")` turns missing/None fields
into `""`, so plain strings model them). -/
structure RCRow where
  date : Int
  category : String
  flag : String
  message : String

/-- The per-row classifier `_is_sc_start`: the ending/clear exclusion is
evaluated first, then the structured fields, then the lexical
fallback. -/
def is_sc_start (r : RCRow) : Bool :=
  if endKeywordsSearch r.message then false
  else if SC_CATEGORIES.contains r.category || SC_FLAGS.contains r.flag then true
  else scKeywordsSearch r.message

/-- The clustering loop of `detect_sc_events` (lines 101-113): a
candidate opens a new Detected Event iff there is no current event yet or
its gap to `last_event_time` exceeds the merge window.  Note that
`last_event_time` is updated only when a new event opens, so it always
holds the current event's START timestamp, not the previously seen
candidate. -/
def mergeCandidatesGo (window : Int) : Option Int → List Int → List Int
  | _, [] => []
  | none, t :: rest => t :: mergeCandidatesGo window (some t) rest
  | some last, t :: rest =>
    if window < t - last then t :: mergeCandidatesGo window (some t) rest
    else mergeCandidatesGo window (some last) rest

/-- `detect_sc_events`: sort the race-control rows by date, classify each
row with `_is_sc_start`, cluster the candidate timestamps with the
hardcoded 300 s merge window, and return the sorted event starts. -/
def detect_sc_events (rows : List RCRow) : List Int :=
  if rows.isEmpty then []
  else
    sortByKey (fun x => x)
      (mergeCandidatesGo 300 none
        (((sortByKey (fun r => r.date) rows).filter (fun r => is_sc_start r)).map
          (fun r => r.date)))

/-- Modelled from the amended claim C3 (spec-side definition): each
Detected Event starts at the first remaining candidate; a following
candidate merges into the current event iff its gap to the current
event's START is at most the merge window, and the first candidate
beyond that window opens the next event. -/
def anchorsSpec (window : Int) : List Int → List Int
  | [] => []
  | t :: rest =>
    t :: anchorsSpec window (rest.dropWhile (fun u => decide (u - t ≤ window)))
termination_by l => l.length
decreasing_by
  simp only [List.length_cons]
  exact Nat.lt_succ_of_le (List.Sublist.length_le (List.dropWhile_sublist _))

/-! ## As-of join (`src/features/asof_join.py`) -/

/-- A DataFrame with a timestamp column (whose dtype is carried as the
Boolean flag `isDatetime`) and one payload of non-key columns per row. -/
structure Frame (α : Type) where
  isDatetime : Bool
  rows : List (Int × α)

/-- Last row, in list order, whose timestamp is `≤ t`.  On a time-sorted
frame this is exactly what `pd.merge_asof(direction="backward")`
selects: the most recent right row with timestamp `≤ t` (the last among
tied timestamps). -/
def lastMatch {β : Type} (t : Int) : List (Int × β) → Option (Int × β)
  | [] => none
  | q :: rs =>
    match lastMatch t rs with
    | some x => some x
    | none => if q.1 ≤ t then some q else none

/-- Backward as-of match with the optional `tolerance`: the selected row
is discarded again when its age `t - ts` exceeds the tolerance. -/
def asofMatch {β : Type} (tol : Option Int) (t : Int) (rs : List (Int × β)) :
    Option (Int × β) :=
  match lastMatch t rs with
  | none => none
  | some q =>
    match tol with
    | none => some q
    | some d => if t - q.1 ≤ d then some q else none

/-- Core of `asof_join` after validation: sort both sides by timestamp
(lines 38-39), then attach to every left row the backward match from the
sorted right side.  The matched right row (timestamp and payload) is
attached whole; an unmatched or out-of-tolerance row gets `none` (NaN
columns). -/
def asof_join_core {α β : Type} (l : List (Int × α)) (r : List (Int × β))
    (tol : Option Int) : List (Int × α × Option (Int × β)) :=
  (sortByKey Prod.fst l).map
    (fun p => (p.1, p.2, asofMatch tol p.1 (sortByKey Prod.fst r)))

/-- `asof_join`: sorts both inputs, validates that both timestamp columns
are datetime-typed — raising `ValueError` otherwise, left side first —
and merges.  The Python column-collision policy (dropping shared
non-key columns from the right) is silent here because the two payload
type parameters are distinct. -/
def asof_join {α β : Type} (left : Frame α) (right : Frame β)
    (tol : Option Int) : Except String (List (Int × α × Option (Int × β))) :=
  if left.isDatetime = false then
    Except.error "left timestamp column must be datetime dtype"
  else if right.isDatetime = false then
    Except.error "right timestamp column must be datetime dtype"
  else Except.ok (asof_join_core left.rows right.rows tol)

/-- Chronological order of a timestamp column (used only to state claim
C5; the code never tests it). -/
def isSortedByTs {α : Type} : List (Int × α) → Bool
  | [] => true
  | [_] => true
  | a :: b :: rest => decide (a.1 ≤ b.1) && isSortedByTs (b :: rest)

/-- Sessions of the left frame, in first-appearance order
(`left[session_col].unique()`). -/
def sessionsOf (left : Frame Nat) : List Nat :=
  uniqueFirst (left.rows.map (fun p => p.2))

/-- One iteration of the `asof_join_by_session` loop for session `s`:
restrict both frames to the session (the right frame of this model
always carries the session column, the branch taken by the feature
pipeline), pass an empty right side through untouched (its auxiliary
columns become NaN in the final concat), and otherwise delegate to
`asof_join`. -/
def sessionChunk {β : Type} (left : Frame Nat) (right : Frame (Nat × β))
    (tol : Option Int) (s : Nat) :
    Except String (List (Int × Nat × Option (Int × Nat × β))) :=
  let lrows := left.rows.filter (fun p => decide (p.2 = s))
  let rrows := right.rows.filter (fun p => decide (p.2.1 = s))
  if rrows.isEmpty then Except.ok (lrows.map (fun p => (p.1, p.2, none)))
  else asof_join ⟨left.isDatetime, lrows⟩ ⟨right.isDatetime, rrows⟩ tol

/-- The session loop with the final `pd.concat`; a `ValueError` raised
for one session propagates before later sessions are processed. -/
def sessionConcat {β : Type} (left : Frame Nat) (right : Frame (Nat × β))
    (tol : Option Int) :
    List Nat → Except String (List (Int × Nat × Option (Int × Nat × β)))
  | [] => Except.ok []
  | s :: rest => do
    let c ← sessionChunk left right tol s
    let rest' ← sessionConcat left right tol rest
    Except.ok (c ++ rest')

/-- `asof_join_by_session`: per-session as-of joins, concatenated in
first-appearance order of the left frame's sessions. -/
def asof_join_by_session {β : Type} (left : Frame Nat)
    (right : Frame (Nat × β)) (tol : Option Int) :
    Except String (List (Int × Nat × Option (Int × Nat × β))) :=
  sessionConcat left right tol (sessionsOf left)

/-- Value of one session iteration when no dtype error occurs. -/
def sessionChunkTotal {β : Type} (left : Frame Nat) (right : Frame (Nat × β))
    (tol : Option Int) (s : Nat) : List (Int × Nat × Option (Int × Nat × β)) :=
  let lrows := left.rows.filter (fun p => decide (p.2 = s))
  let rrows := right.rows.filter (fun p => decide (p.2.1 = s))
  if rrows.isEmpty then lrows.map (fun p => (p.1, p.2, none))
  else asof_join_core lrows rrows tol

/-! ## Alert policy analysis (`src/eval/alert_analysis.py`)

The dataframe rows carry the predicted probability, the binary label,
the session id and the time-to-event value.  The Python code rounds the
reported rates to 4 decimals and the median lead time to 1 decimal for
presentation — a floating-point formatting step that leaves 0 at 0 and
NaN at NaN, so the model reports the exact rational values.  The
`alerts_per_race` mean over an empty frame (pandas NaN) is the one spot
where the model's total rational arithmetic (0/0 = 0) departs from
pandas; no claim touches it. -/

/-- A scored test-set row. -/
structure ARow where
  prob : ℚ
  y : Int
  session : Nat
  tte : ℚ
deriving DecidableEq

/-- The alert policy: `df["_alert"] = (df["_prob"] >= thresh)`. -/
def alertFlag (th : ℚ) (r : ARow) : Bool := decide (th ≤ r.prob)

/-- Rows that are true positives at a threshold (alert and label 1). -/
def tpRows (rows : List ARow) (th : ℚ) : List ARow :=
  rows.filter (fun r => alertFlag th r && decide (r.y = 1))

/-- True positive count. -/
def tpCount (rows : List ARow) (th : ℚ) : Nat := (tpRows rows th).length

/-- False positive count (alert, label 0). -/
def fpCount (rows : List ARow) (th : ℚ) : Nat :=
  (rows.filter (fun r => alertFlag th r && decide (r.y = 0))).length

/-- False negative count (no alert, label 1). -/
def fnCount (rows : List ARow) (th : ℚ) : Nat :=
  (rows.filter (fun r => !alertFlag th r && decide (r.y = 1))).length

/-- True negative count (no alert, label 0). -/
def tnCount (rows : List ARow) (th : ℚ) : Nat :=
  (rows.filter (fun r => !alertFlag th r && decide (r.y = 0))).length

/-- The `pandas.Series.median`: midpoint of the sorted values (mean of
the two central values for an even count).  Only applied to nonempty
lists; the `[]` value is junk. -/
def median (l : List ℚ) : ℚ :=
  let s := sortByKey (fun x => x) l
  if s.length % 2 = 1 then s.getD (s.length / 2) 0
  else (s.getD (s.length / 2 - 1) 0 + s.getD (s.length / 2) 0) / 2

/-- One output row of `analyze_alert_policy`. -/
structure AlertStats where
  threshold : ℚ
  alerts_per_race : ℚ
  median_lead_time_s : Option ℚ
  true_positive_rate : ℚ
  false_positive_rate : ℚ
  precision : ℚ
deriving DecidableEq

/-- The per-threshold body of the `analyze_alert_policy` loop. -/
def analyze_alert_policy_at (rows : List ARow) (th : ℚ) : AlertStats :=
  let tp := tpCount rows th
  let fp := fpCount rows th
  let fn := fnCount rows th
  let tn := tnCount rows th
  let sessions := uniqueFirst (rows.map (fun r => r.session))
  { threshold := th
    alerts_per_race :=
      ((sessions.map (fun s =>
          ((rows.filter (fun r => decide (r.session = s) && alertFlag th r)).length
            : ℚ))).sum) / (sessions.length : ℚ)
    median_lead_time_s :=
      if (tpRows rows th).isEmpty then none
      else some (median ((tpRows rows th).map (fun r => r.tte)))
    true_positive_rate :=
      if 0 < tp + fn then (tp : ℚ) / ((tp : ℚ) + (fn : ℚ)) else 0
    false_positive_rate :=
      if 0 < fp + tn then (fp : ℚ) / ((fp : ℚ) + (tn : ℚ)) else 0
    precision :=
      if 0 < tp + fp then (tp : ℚ) / ((tp : ℚ) + (fp : ℚ)) else 0 }

/-- `analyze_alert_policy`: one stats row per threshold, with the default
threshold grid when `None` is passed. -/
def analyze_alert_policy (rows : List ARow) (thresholds : Option (List ℚ)) :
    List AlertStats :=
  (thresholds.getD [1/10, 2/10, 3/10, 4/10, 5/10, 6/10, 7/10]).map
    (fun th => analyze_alert_policy_at rows th)

/-! ## Theorems -/

theorem mem_insertByKey {α β : Type} [LinearOrder β] (key : α → β) (x a : α) :
    ∀ l : List α, (a ∈ insertByKey key x l ↔ a = x ∨ a ∈ l)
  | [] => by simp [insertByKey]
  | y :: ys => by
    by_cases h : key x ≤ key y
    · simp [insertByKey, h]
    · simp only [insertByKey, if_neg h, List.mem_cons, mem_insertByKey key x a ys]
      tauto

theorem mem_sortByKey {α β : Type} [LinearOrder β] (key : α → β) (a : α) :
    ∀ l : List α, (a ∈ sortByKey key l ↔ a ∈ l)
  | [] => by simp [sortByKey]
  | x :: xs => by
    simp only [sortByKey, mem_insertByKey key x a (sortByKey key xs),
      mem_sortByKey key a xs, List.mem_cons]

theorem pairwise_insertByKey {α β : Type} [LinearOrder β] (key : α → β) (x : α) :
    ∀ l : List α, List.Pairwise (fun a b => key a ≤ key b) l →
      List.Pairwise (fun a b => key a ≤ key b) (insertByKey key x l)
  | [], _ => by simp [insertByKey]
  | y :: ys, h => by
    by_cases hxy : key x ≤ key y
    · rw [insertByKey, if_pos hxy]
      refine List.Pairwise.cons ?_ h
      intro b hb
      rcases List.mem_cons.mp hb with rfl | hb
      · exact hxy
      · exact le_trans hxy (List.rel_of_pairwise_cons h hb)
    · rw [insertByKey, if_neg hxy]
      refine List.Pairwise.cons ?_ (pairwise_insertByKey key x ys h.of_cons)
      intro b hb
      rcases (mem_insertByKey key x b ys).mp hb with rfl | hb
      · exact le_of_not_le hxy
      · exact List.rel_of_pairwise_cons h hb

theorem pairwise_sortByKey {α β : Type} [LinearOrder β] (key : α → β) :
    ∀ l : List α, List.Pairwise (fun a b => key a ≤ key b) (sortByKey key l)
  | [] => by simp [sortByKey]
  | x :: xs => pairwise_insertByKey key x _ (pairwise_sortByKey key xs)

theorem sortByKey_of_pairwise {α β : Type} [LinearOrder β] (key : α → β) :
    ∀ l : List α, List.Pairwise (fun a b => key a ≤ key b) l → sortByKey key l = l
  | [], _ => rfl
  | x :: xs, h => by
    rw [sortByKey, sortByKey_of_pairwise key xs h.of_cons]
    cases xs with
    | nil => rfl
    | cons y ys =>
      rw [insertByKey, if_pos (List.rel_of_pairwise_cons h (List.mem_cons_self y ys))]

/-- Element access with a default; wraps `List.getD` for readability. -/
theorem getD_map_lt {α β : Type} (f : α → β) (l : List α) (i : Nat)
    (hi : i < l.length) (d : α) (d' : β) : (l.map f).getD i d' = f (l.getD i d) := by
  rw [List.getD_eq_getElem _ d' (by simpa using hi), List.getD_eq_getElem _ d hi,
    List.getElem_map]

theorem inWindow_left_boundary (t w : Int) : inWindow t w (t - w) = false := by
  simp [inWindow]

theorem inWindow_right_boundary (t w : Int) (hw : 0 < w) : inWindow t w t = true := by
  simp only [inWindow, Bool.and_eq_true, decide_eq_true_eq]
  omega

theorem windowValues_append_left_boundary {γ : Type} (t w : Int)
    (events : List (Int × γ)) (v : γ) :
    windowValues t w (events ++ [(t - w, v)]) = windowValues t w events := by
  simp [windowValues, List.filter_append, inWindow_left_boundary]

theorem windowValues_append_right_boundary {γ : Type} (t w : Int) (hw : 0 < w)
    (events : List (Int × γ)) (v : γ) :
    windowValues t w (events ++ [(t, v)]) = windowValues t w events ++ [v] := by
  simp [windowValues, List.filter_append, inWindow_right_boundary t w hw]

theorem rolling_agg_ok (timeline : List Int) (events : List (Int × ℚ)) (w : Int)
    (name : String) (fn : List ℚ → ℚ) (h : agg_map.lookup name = some fn) :
    rolling_agg timeline events w name = Except.ok (timeline.map (fun t =>
      if (windowValues t w events).isEmpty then none
      else some (fn (windowValues t w events)))) := by
  simp [rolling_agg, h]

/-- C4: for every query timestamp `t`, window length `w`, and source
stream, the rolling primitives (`rolling_count`, `rolling_agg`,
`rolling_unique_count`) aggregate exactly the source rows whose
timestamps lie in the half-open interval `(t - w, t]`: a source row with
timestamp exactly `t - w` is excluded (appending one leaves the result
at `t` unchanged), and a source row with timestamp exactly `t` is
included (appending one adds its value to the aggregated selection). -/
theorem rolling_window_boundary_C4 {ν : Type} [DecidableEq ν]
    (timeline events : List Int) (evR : List (Int × ℚ)) (evU : List (Int × ν))
    (w : Int) (v : ℚ) (i : Nat) (hw : 0 < w) (hi : i < timeline.length) :
    ((rolling_count timeline events w).getD i 0 =
        (events.filter (fun e => inWindow (timeline.getD i 0) w e)).length)
    ∧ ((rolling_count timeline (events ++ [timeline.getD i 0 - w]) w).getD i 0 =
        (rolling_count timeline events w).getD i 0)
    ∧ ((rolling_count timeline (events ++ [timeline.getD i 0]) w).getD i 0 =
        (rolling_count timeline events w).getD i 0 + 1)
    ∧ (windowValues (timeline.getD i 0) w (evR ++ [(timeline.getD i 0 - w, v)]) =
        windowValues (timeline.getD i 0) w evR)
    ∧ (windowValues (timeline.getD i 0) w (evR ++ [(timeline.getD i 0, v)]) =
        windowValues (timeline.getD i 0) w evR ++ [v])
    ∧ ((rolling_unique_count timeline evU w).getD i 0 =
        ((windowValues (timeline.getD i 0) w evU).dedup).length)
    ∧ (∀ name fn, agg_map.lookup name = some fn →
        rolling_agg timeline evR w name = Except.ok (timeline.map (fun t =>
          if (windowValues t w evR).isEmpty then none
          else some (fn (windowValues t w evR))))) := by
  refine ⟨?_, ?_, ?_, ?_, ?_, ?_, ?_⟩
  · rw [rolling_count, getD_map_lt _ _ _ hi 0 0]
  · rw [rolling_count, getD_map_lt _ _ _ hi 0 0, rolling_count,
      getD_map_lt _ _ _ hi 0 0, List.filter_append]
    simp [inWindow_left_boundary]
  · rw [rolling_count, getD_map_lt _ _ _ hi 0 0, rolling_count,
      getD_map_lt _ _ _ hi 0 0, List.filter_append]
    simp [inWindow_right_boundary _ w hw]
  · exact windowValues_append_left_boundary _ w evR v
  · exact windowValues_append_right_boundary _ w hw evR v
  · rw [rolling_unique_count, getD_map_lt _ _ _ hi 0 0]
  · intro name fn hname
    exact rolling_agg_ok timeline evR w name fn hname

/-- Witness for C4 at the spec's own boundary scenario: grid point
`t = 100`, window `60`; events at `40` (exactly `t - w`, excluded), `60`
and `100` (exactly `t`, included). -/
theorem rolling_window_boundary_C4_witness :
    ((F1.rolling_count [100] [40, 60, 100] 60).getD 0 0 = 2)
    ∧ ((F1.rolling_count [100] ([40, 60, 100] ++ [40]) 60).getD 0 0 =
        (F1.rolling_count [100] [40, 60, 100] 60).getD 0 0)
    ∧ ((F1.rolling_count [100] ([40, 60, 100] ++ [100]) 60).getD 0 0 =
        (F1.rolling_count [100] [40, 60, 100] 60).getD 0 0 + 1)
    ∧ (F1.windowValues 100 60 ([(40, 5), (100, 7)] ++ [(40, 9)]) =
        F1.windowValues 100 60 [(40, (5 : ℚ)), (100, 7)])
    ∧ (F1.windowValues 100 60 ([(40, 5), (100, 7)] ++ [(100, 9)]) =
        F1.windowValues 100 60 [(40, (5 : ℚ)), (100, 7)] ++ [9]) := by
  have h := F1.rolling_window_boundary_C4 [100] [40, 60, 100]
    [(40, (5 : ℚ)), (100, 7)] [(40, (2 : Nat)), (100, 3)] 60 9 0
    (by decide) (by decide)
  refine ⟨?_, ?_, ?_, ?_, ?_⟩
  · rw [h.1]; decide
  · exact h.2.1
  · exact h.2.2.1
  · exact h.2.2.2.1
  · exact h.2.2.2.2.1

/-- C8: an empty trailing window yields null (`none`), never `0`, for
every recognized reducer including `sum`; and a reducer name outside
`mean / max / min / std / sum` makes `rolling_agg` raise a `ValueError`. -/
theorem rolling_agg_empty_and_unknown_C8 (timeline : List Int)
    (events : List (Int × ℚ)) (w : Int) (name : String) :
    (name ∉ (["mean", "max", "min", "std", "sum"] : List String) →
      rolling_agg timeline events w name =
        Except.error ("Unknown agg_fn " ++ name))
    ∧ (name ∈ (["mean", "max", "min", "std", "sum"] : List String) →
      ∃ fn out, agg_map.lookup name = some fn
        ∧ rolling_agg timeline events w name = Except.ok out
        ∧ out.length = timeline.length
        ∧ ∀ i, i < timeline.length →
            ((windowValues (timeline.getD i 0) w events = [] →
                out.getD i none = none)
             ∧ (windowValues (timeline.getD i 0) w events ≠ [] →
                out.getD i none =
                  some (fn (windowValues (timeline.getD i 0) w events))))) := by
  constructor
  · intro hname
    simp only [List.mem_cons, List.not_mem_nil, or_false, not_or] at hname
    obtain ⟨h1, h2, h3, h4, h5⟩ := hname
    have hlook : agg_map.lookup name = none := by
      simp [agg_map, List.lookup, beq_eq_false_iff_ne.mpr h1,
        beq_eq_false_iff_ne.mpr h2, beq_eq_false_iff_ne.mpr h3,
        beq_eq_false_iff_ne.mpr h4, beq_eq_false_iff_ne.mpr h5]
    simp [rolling_agg, hlook]
  · intro hname
    have key : ∀ fn : List ℚ → ℚ, agg_map.lookup name = some fn →
        ∃ fn' out, agg_map.lookup name = some fn'
          ∧ rolling_agg timeline events w name = Except.ok out
          ∧ out.length = timeline.length
          ∧ ∀ i, i < timeline.length →
              ((windowValues (timeline.getD i 0) w events = [] →
                  out.getD i none = none)
               ∧ (windowValues (timeline.getD i 0) w events ≠ [] →
                  out.getD i none =
                    some (fn' (windowValues (timeline.getD i 0) w events)))) := by
      intro fn hfn
      refine ⟨fn, _, hfn, rolling_agg_ok timeline events w name fn hfn, by simp, ?_⟩
      intro i hi
      rw [getD_map_lt _ _ _ hi 0 none]
      constructor
      · intro hempty
        rw [if_pos (List.isEmpty_iff.mpr hempty)]
      · intro hne
        rw [if_neg (fun hcon => hne (List.isEmpty_iff.mp hcon))]
    simp only [List.mem_cons, List.not_mem_nil, or_false] at hname
    rcases hname with rfl | rfl | rfl | rfl | rfl
    · exact key nanmean rfl
    · exact key nanmax rfl
    · exact key nanmin rfl
    · exact key nanstd rfl
    · exact key nansum rfl

theorem firstAfter_eq_none (t : Int) (events : List Int) :
    firstAfter t events = none ↔ ∀ e ∈ events, e ≤ t := by
  simp [firstAfter, List.head?_eq_none_iff, List.filter_eq_nil_iff]

theorem firstAfter_least (t : Int) (events : List Int)
    (hsorted : List.Pairwise (fun a b => a ≤ b) events) (e : Int)
    (he : firstAfter t events = some e) :
    e ∈ events ∧ t < e ∧ ∀ x ∈ events, t < x → e ≤ x := by
  rcases hf : events.filter (fun x => decide (t < x)) with _ | ⟨a, rest⟩
  · rw [firstAfter, hf] at he
    simp at he
  · rw [firstAfter, hf] at he
    simp only [List.head?_cons, Option.some.injEq] at he
    subst he
    have hmem : a ∈ events.filter (fun x => decide (t < x)) := by
      rw [hf]; exact List.mem_cons_self a rest
    have hpair : List.Pairwise (fun a b : Int => a ≤ b)
        (events.filter (fun x => decide (t < x))) := hsorted.filter _
    rw [hf] at hpair
    rcases List.mem_filter.mp hmem with ⟨he1, he2⟩
    refine ⟨he1, by simpa using he2, ?_⟩
    intro x hx htx
    have hxf : x ∈ events.filter (fun y => decide (t < y)) :=
      List.mem_filter.mpr ⟨hx, by simpa using htx⟩
    rw [hf] at hxf
    rcases List.mem_cons.mp hxf with rfl | hxf
    · exact le_refl x
    · exact List.rel_of_pairwise_cons hpair hxf

/-- C2: at each grid timestamp `t`, with `e` the earliest event strictly
after `t`, `assign_labels` sets time-to-event `= min (e - t) cap` and
label `= 1` iff `e - t ≤ horizon`; when no event lies strictly after `t`
(in particular when the event list is empty) it sets time-to-event to the
cap exactly and label `0`.  The nonzero-argument hypotheses keep the
Python `or`-defaulting (claim C10) from replacing the requested horizon
and cap. -/
theorem assign_labels_spec_C2 (timeline events : List Int) (h c : Int)
    (hsorted : List.Pairwise (fun a b => a ≤ b) events)
    (hh : h ≠ 0) (hc : c ≠ 0) :
    ((assign_labels timeline events (some h) (some c)).map (fun r => r.1) = timeline)
    ∧ ∀ t y tte, (t, y, tte) ∈ assign_labels timeline events (some h) (some c) →
        ((∀ e ∈ events, e ≤ t) → y = 0 ∧ tte = c)
        ∧ (∀ e₀, e₀ ∈ events → t < e₀ → (∀ e ∈ events, t < e → e₀ ≤ e) →
            y = (if e₀ - t ≤ h then 1 else 0) ∧ tte = min (e₀ - t) c) := by
  have hpyh : pyOr (some h) 300 = h := by simp [pyOr, hh]
  have hpyc : pyOr (some c) 1800 = c := by simp [pyOr, hc]
  constructor
  · rw [assign_labels]
    split
    · rw [List.map_map]
      have hcomp : ((fun r : Int × Int × Int => r.1) ∘
          fun t : Int => (t, (0 : Int), pyOr (some c) 1800)) = id := by
        funext t; rfl
      rw [hcomp, List.map_id]
    · rw [List.map_map]
      have hcomp : ((fun r : Int × Int × Int => r.1) ∘ fun t : Int =>
          match firstAfter t events with
          | none => (t, 0, pyOr (some c) 1800)
          | some e => (t, if e - t ≤ pyOr (some h) 300 then 1 else 0,
              min (e - t) (pyOr (some c) 1800))) = id := by
        funext t
        show (match firstAfter t events with
          | none => ((t : Int), (0 : Int), pyOr (some c) 1800)
          | some e => (t, if e - t ≤ pyOr (some h) 300 then 1 else 0,
              min (e - t) (pyOr (some c) 1800))).1 = t
        cases firstAfter t events <;> rfl
      rw [hcomp, List.map_id]
  · intro t y tte hmem
    rw [assign_labels] at hmem
    by_cases hev : events.isEmpty = true
    · rw [if_pos hev] at hmem
      have hnil : events = [] := List.isEmpty_iff.mp hev
      rcases List.mem_map.mp hmem with ⟨t', _, ht'⟩
      simp only [Prod.mk.injEq] at ht'
      obtain ⟨rfl, hy, htte⟩ := ht'
      constructor
      · intro _
        exact ⟨hy.symm, by rw [← htte, hpyc]⟩
      · intro e₀ he₀ _ _
        rw [hnil] at he₀
        exact absurd he₀ (List.not_mem_nil e₀)
    · rw [if_neg hev] at hmem
      rcases List.mem_map.mp hmem with ⟨t', _, ht'⟩
      rcases hfa : firstAfter t' events with _ | e
      · simp only [hfa, Prod.mk.injEq] at ht'
        obtain ⟨rfl, hy, htte⟩ := ht'
        constructor
        · intro _
          exact ⟨hy.symm, by rw [← htte, hpyc]⟩
        · intro e₀ he₀ hte₀ _
          exact absurd ((firstAfter_eq_none t' events).mp hfa e₀ he₀)
            (not_le.mpr hte₀)
      · simp only [hfa, Prod.mk.injEq] at ht'
        obtain ⟨rfl, hy, htte⟩ := ht'
        obtain ⟨hmem', hte', hmin⟩ := firstAfter_least t' events hsorted e hfa
        constructor
        · intro hall
          exact absurd (hall e hmem') (not_le.mpr hte')
        · intro e₀ he₀ hte₀ hleast
          have heq : e = e₀ := le_antisymm (hmin e₀ he₀ hte₀) (hleast e hmem' hte')
          subst heq
          exact ⟨by rw [← hy, hpyh], by rw [← htte, hpyc]⟩

/-- Witness for C2: grid points `0` and `350`, events at `100` and `800`,
horizon `300`, cap `1800`: the point at `0` is labelled `1` with
time-to-event `100` (the earliest future event is `100`, not `800`),
and the point at `350` is labelled `0` with time-to-event `450`. -/
theorem assign_labels_spec_C2_witness :
    ((F1.assign_labels [0, 350] [100, 800] (some 300) (some 1800)).map
        (fun r => r.1) = [0, 350])
    ∧ ((1 : Int) = (if (100 : Int) - 0 ≤ 300 then 1 else 0)
        ∧ (100 : Int) = min ((100 : Int) - 0) 1800)
    ∧ ((0 : Int) = (if (800 : Int) - 350 ≤ 300 then 1 else 0)
        ∧ (450 : Int) = min ((800 : Int) - 350) 1800) := by
  have h := F1.assign_labels_spec_C2 [0, 350] [100, 800] 300 1800
    (by decide) (by decide) (by decide)
  refine ⟨h.1, ?_, ?_⟩
  · exact (h.2 0 1 100 (by decide)).2 100 (by decide) (by decide)
      (by intro e he hte; simp at he; rcases he with rfl | rfl <;> omega)
  · exact (h.2 350 0 450 (by decide)).2 800 (by decide) (by decide)
      (by intro e he hte; simp at he; rcases he with rfl | rfl <;> omega)

/-- C10: the parameter defaulting in `assign_labels` is written with
Python `or`, so a `0` argument for the horizon (or the cap) is falsy and
is silently replaced by the configured defaults (300 s horizon, 1800 s
cap): the output for `horizon_seconds = 0` equals the output for
`horizon_seconds = None`, and likewise for the cap.  The third conjunct
shows a grid point labelled positive even though a literal zero horizon
would forbid any positive label. -/
theorem assign_labels_zero_defaulting_C10 (timeline events : List Int)
    (horizon_seconds cap_seconds : Option Int) :
    assign_labels timeline events (some 0) cap_seconds =
        assign_labels timeline events none cap_seconds
    ∧ assign_labels timeline events horizon_seconds (some 0) =
        assign_labels timeline events horizon_seconds none
    ∧ assign_labels [0] [100] (some 0) none = [(0, 1, 100)] := by
  refine ⟨rfl, rfl, by decide⟩

/-- Witness for C8: at `t = 10` with window `3` the only source row
(timestamp `0`) misses the window, so the `sum` reducer yields `none`;
the unknown reducer name `"median"` raises. -/
theorem rolling_agg_empty_and_unknown_C8_witness :
    (∃ fn out, F1.agg_map.lookup "sum" = some fn
      ∧ F1.rolling_agg [10] [((0 : Int), (5 : ℚ))] 3 "sum" = Except.ok out
      ∧ out.length = ([10] : List Int).length
      ∧ ∀ i, i < ([10] : List Int).length →
          ((F1.windowValues (([10] : List Int).getD i 0) 3 [((0 : Int), (5 : ℚ))] = [] →
              out.getD i none = none)
           ∧ (F1.windowValues (([10] : List Int).getD i 0) 3 [((0 : Int), (5 : ℚ))] ≠ [] →
              out.getD i none =
                some (fn (F1.windowValues (([10] : List Int).getD i 0) 3
                  [((0 : Int), (5 : ℚ))])))))
    ∧ F1.rolling_agg [10] [((0 : Int), (5 : ℚ))] 3 "median" =
        Except.error "Unknown agg_fn median" := by
  constructor
  · exact (F1.rolling_agg_empty_and_unknown_C8 [10] [((0 : Int), (5 : ℚ))] 3 "sum").2
      (by simp)
  · exact (F1.rolling_agg_empty_and_unknown_C8 [10] [((0 : Int), (5 : ℚ))] 3 "median").1
      (by simp)

theorem mergeCandidatesGo_some (window l : Int) :
    ∀ ts : List Int, mergeCandidatesGo window (some l) ts =
      mergeCandidatesGo window none
        (ts.dropWhile (fun u => decide (u - l ≤ window)))
  | [] => rfl
  | t :: rest => by
    rw [List.dropWhile_cons]
    by_cases h : t - l ≤ window
    · rw [if_pos (by simpa using h)]
      show (if window < t - l then
          t :: mergeCandidatesGo window (some t) rest
        else mergeCandidatesGo window (some l) rest) = _
      rw [if_neg (by omega)]
      exact mergeCandidatesGo_some window l rest
    · rw [if_neg (by simpa using h)]
      show (if window < t - l then
          t :: mergeCandidatesGo window (some t) rest
        else mergeCandidatesGo window (some l) rest) = _
      rw [if_pos (by omega)]
      rfl

theorem mergeCandidatesGo_none_eq_anchorsSpec (window : Int) :
    ∀ ts : List Int, mergeCandidatesGo window none ts = anchorsSpec window ts
  | [] => by simp [anchorsSpec, mergeCandidatesGo]
  | t :: rest => by
    show t :: mergeCandidatesGo window (some t) rest = _
    rw [anchorsSpec, mergeCandidatesGo_some window t rest,
      mergeCandidatesGo_none_eq_anchorsSpec window
        (rest.dropWhile (fun u => decide (u - t ≤ window)))]
termination_by ts => ts.length
decreasing_by
  simp only [List.length_cons]
  exact Nat.lt_succ_of_le (List.Sublist.length_le (List.dropWhile_sublist _))

/-- C3 counterexample: the candidates `0, 200, 400` have every successive
gap (200 s) within the 300 s merge window, so the claim as stated would
collapse them into the single event `[0]`; the code instead measures
each gap against the current event's start and emits `[0, 400]` — shown
both for the clustering loop alone and for `detect_sc_events` on three
race-control rows carrying the `SafetyCar` category. -/
theorem detect_cluster_gap_counterexample_C3 :
    List.Chain' (fun a b => b - a ≤ 300) [(0 : Int), 200, 400]
    ∧ mergeCandidatesGo 300 none [(0 : Int), 200, 400] = [0, 400]
    ∧ detect_sc_events
        [⟨0, "SafetyCar", "", ""⟩, ⟨200, "SafetyCar", "", ""⟩,
         ⟨400, "SafetyCar", "", ""⟩] = [0, 400] := by
  refine ⟨?_, by decide, by decide⟩
  simp [List.chain'_cons, List.chain'_singleton]

/-- C3 (amended): consecutive candidates collapse into a single Detected
Event as long as each candidate's gap to the CURRENT EVENT'S START (the
first candidate of the cluster) is at most the merge window (default
300 s); the first candidate whose gap to that start exceeds the window
closes the event and opens a new one at its own timestamp.  The
clustering loop coincides with this anchor-gap specification on every
candidate list, and `detect_sc_events` is the sorted anchor clustering of
the classified, date-sorted rows. -/
theorem detect_cluster_anchor_gap_C3 (window : Int) (ts : List Int)
    (rows : List RCRow) :
    mergeCandidatesGo window none ts = anchorsSpec window ts
    ∧ detect_sc_events rows =
        sortByKey (fun x => x)
          (anchorsSpec 300
            (((sortByKey (fun r => r.date) rows).filter
                (fun r => is_sc_start r)).map (fun r => r.date))) := by
  constructor
  · exact mergeCandidatesGo_none_eq_anchorsSpec window ts
  · rw [detect_sc_events]
    split
    · have hnil : rows = [] := List.isEmpty_iff.mp (by assumption)
      subst hnil
      simp [sortByKey, anchorsSpec]
    · rw [mergeCandidatesGo_none_eq_anchorsSpec]

/-- C7: the classifier applies the fixed priority order — an
ending/withdrawn/resume/clear match suppresses the row regardless of its
category and flag; otherwise the row is a start exactly when its
category or flag is in the incident vocabulary or, failing that, its
message matches the incident start pattern. -/
theorem is_sc_start_priority_C7 (r : RCRow) :
    (endKeywordsSearch r.message = true → is_sc_start r = false)
    ∧ (endKeywordsSearch r.message = false →
        is_sc_start r = (SC_CATEGORIES.contains r.category
          || SC_FLAGS.contains r.flag
          || scKeywordsSearch r.message)) := by
  constructor
  · intro hend
    rw [is_sc_start, if_pos hend]
  · intro hend
    rw [is_sc_start, if_neg (by simp [hend])]
    cases hA : SC_CATEGORIES.contains r.category <;>
      cases hB : SC_FLAGS.contains r.flag <;>
        cases hC : scKeywordsSearch r.message <;>
          simp [hA, hB, hC]

/-- Witness for C7: a row whose message reads `SAFETY CAR ENDING` is
rejected even though both its category (`SafetyCar`) and flag (`SC`) are
in the incident vocabulary; a row with empty structured fields but
message `VIRTUAL SAFETY CAR DEPLOYED` is accepted through the lexical
fallback. -/
theorem is_sc_start_priority_C7_witness :
    F1.is_sc_start ⟨0, "SafetyCar", "SC", "SAFETY CAR ENDING"⟩ = false
    ∧ F1.is_sc_start ⟨0, "", "", "VIRTUAL SAFETY CAR DEPLOYED"⟩ =
        (F1.SC_CATEGORIES.contains ""
          || F1.SC_FLAGS.contains ""
          || F1.scKeywordsSearch "VIRTUAL SAFETY CAR DEPLOYED") := by
  constructor
  · exact (F1.is_sc_start_priority_C7 ⟨0, "SafetyCar", "SC", "SAFETY CAR ENDING"⟩).1
      (by decide)
  · exact (F1.is_sc_start_priority_C7 ⟨0, "", "", "VIRTUAL SAFETY CAR DEPLOYED"⟩).2
      (by decide)

theorem lastMatch_mem {β : Type} (t : Int) :
    ∀ (rs : List (Int × β)) (x : Int × β),
      lastMatch t rs = some x → x ∈ rs ∧ x.1 ≤ t := by
  intro rs
  induction rs with
  | nil => intro x hx; simp [lastMatch] at hx
  | cons q rs ih =>
    intro x hx
    rw [lastMatch] at hx
    rcases h : lastMatch t rs with _ | y
    · rw [h] at hx
      by_cases hq : q.1 ≤ t
      · rw [if_pos hq] at hx
        simp only [Option.some.injEq] at hx
        subst hx
        exact ⟨List.mem_cons_self q rs, hq⟩
      · rw [if_neg hq] at hx
        simp at hx
    · rw [h] at hx
      simp only [Option.some.injEq] at hx
      subst hx
      obtain ⟨hmem, hle⟩ := ih y h
      exact ⟨List.mem_cons_of_mem q hmem, hle⟩

theorem lastMatch_none {β : Type} (t : Int) :
    ∀ rs : List (Int × β),
      lastMatch t rs = none → ∀ q ∈ rs, ¬ q.1 ≤ t := by
  intro rs
  induction rs with
  | nil => intro _ q hq; simp at hq
  | cons q rs ih =>
    intro hx p hp
    rw [lastMatch] at hx
    rcases h : lastMatch t rs with _ | y
    · rw [h] at hx
      by_cases hq : q.1 ≤ t
      · rw [if_pos hq] at hx; simp at hx
      · rw [if_neg hq] at hx
        rcases List.mem_cons.mp hp with rfl | hp
        · exact hq
        · exact ih h p hp
    · rw [h] at hx; simp at hx

theorem lastMatch_max {β : Type} (t : Int) :
    ∀ rs : List (Int × β),
      List.Pairwise (fun a b => a.1 ≤ b.1) rs →
      ∀ x, lastMatch t rs = some x → ∀ q ∈ rs, q.1 ≤ t → q.1 ≤ x.1 := by
  intro rs
  induction rs with
  | nil => intro _ x hx; simp [lastMatch] at hx
  | cons q rs ih =>
    intro hsort x hx p hp hpt
    rw [lastMatch] at hx
    rcases h : lastMatch t rs with _ | y
    · rw [h] at hx
      by_cases hq : q.1 ≤ t
      · rw [if_pos hq] at hx
        simp only [Option.some.injEq] at hx
        subst hx
        rcases List.mem_cons.mp hp with rfl | hp
        · exact le_refl _
        · exact absurd hpt (lastMatch_none t rs h p hp)
      · rw [if_neg hq] at hx; simp at hx
    · rw [h] at hx
      simp only [Option.some.injEq] at hx
      subst hx
      rcases List.mem_cons.mp hp with rfl | hp
      · exact List.rel_of_pairwise_cons hsort (lastMatch_mem t rs y h).1
      · exact ih hsort.of_cons y h p hp hpt

theorem asofMatch_spec {β : Type} (tol : Option Int) (t : Int)
    (rs : List (Int × β)) (hsort : List.Pairwise (fun a b => a.1 ≤ b.1) rs) :
    (∀ x, asofMatch tol t rs = some x →
      x ∈ rs ∧ x.1 ≤ t ∧ (∀ q ∈ rs, q.1 ≤ t → q.1 ≤ x.1)
        ∧ ∀ d, tol = some d → t - x.1 ≤ d)
    ∧ (asofMatch tol t rs = none → ∀ q ∈ rs, q.1 ≤ t →
        ∃ d, tol = some d ∧ d < t - q.1) := by
  rcases h : lastMatch t rs with _ | y
  · have hmm : asofMatch tol t rs = none := by rw [asofMatch, h]
    refine ⟨fun x hx => by rw [hmm] at hx; simp at hx, fun _ q hq hqt => ?_⟩
    exact absurd hqt (lastMatch_none t rs h q hq)
  · obtain ⟨hymem, hyle⟩ := lastMatch_mem t rs y h
    have hymax := lastMatch_max t rs hsort y h
    rcases tol with _ | d
    · have hmm : asofMatch none t rs = some y := by rw [asofMatch, h]
      refine ⟨fun x hx => ?_, fun hno => by rw [hmm] at hno; simp at hno⟩
      rw [hmm] at hx
      simp only [Option.some.injEq] at hx
      subst hx
      exact ⟨hymem, hyle, hymax, fun d hd => by simp at hd⟩
    · by_cases hd : t - y.1 ≤ d
      · have hmm : asofMatch (some d) t rs = some y := by
          rw [asofMatch, h]; exact if_pos hd
        refine ⟨fun x hx => ?_, fun hno => by rw [hmm] at hno; simp at hno⟩
        rw [hmm] at hx
        simp only [Option.some.injEq] at hx
        subst hx
        refine ⟨hymem, hyle, hymax, fun d' hd' => ?_⟩
        simp only [Option.some.injEq] at hd'
        omega
      · have hmm : asofMatch (some d) t rs = none := by
          rw [asofMatch, h]; exact if_neg hd
        refine ⟨fun x hx => by rw [hmm] at hx; simp at hx, fun _ q hq hqt => ?_⟩
        have := hymax q hq hqt
        exact ⟨d, rfl, by omega⟩

theorem asof_join_core_fst_mem {α β : Type} (l : List (Int × α))
    (r : List (Int × β)) (tol : Option Int) :
    ∀ row ∈ asof_join_core l r tol, (row.1, row.2.1) ∈ l := by
  intro row hrow
  rcases List.mem_map.mp hrow with ⟨p, hp, rfl⟩
  exact (mem_sortByKey Prod.fst p l).mp hp

/-- C1: for every grid row at timestamp `t`, the backward as-of join
attaches the auxiliary columns of the most recent auxiliary row whose
timestamp is `≤ t`; when no such row exists, or when the matched row's
age `t - ts` exceeds the tolerance, the attached columns are null — and
a matched value never has a source timestamp strictly greater than `t`
(conjunct `x.1 ≤ row.1`).  Every grid row appears in the output
(first conjunct: the output rows are the time-sorted grid rows). -/
theorem asof_join_most_recent_C1 {α β : Type} (left : Frame α)
    (right : Frame β) (tol : Option Int)
    (out : List (Int × α × Option (Int × β)))
    (h : asof_join left right tol = Except.ok out) :
    (out.map (fun row => (row.1, row.2.1)) = sortByKey Prod.fst left.rows)
    ∧ (∀ row ∈ out,
        (∀ x, row.2.2 = some x → x ∈ right.rows ∧ x.1 ≤ row.1
            ∧ (∀ q ∈ right.rows, q.1 ≤ row.1 → q.1 ≤ x.1)
            ∧ ∀ d, tol = some d → row.1 - x.1 ≤ d)
        ∧ (row.2.2 = none → ∀ q ∈ right.rows, q.1 ≤ row.1 →
            ∃ d, tol = some d ∧ d < row.1 - q.1)) := by
  have hout : out = asof_join_core left.rows right.rows tol := by
    rw [asof_join] at h
    split at h
    · simp at h
    · split at h
      · simp at h
      · simp only [Except.ok.injEq] at h
        exact h.symm
  subst hout
  constructor
  · rw [asof_join_core, List.map_map]
    have hcomp : ((fun row : Int × α × Option (Int × β) => (row.1, row.2.1)) ∘
        fun p : Int × α =>
          (p.1, p.2, asofMatch tol p.1 (sortByKey Prod.fst right.rows))) = id := by
      funext p; rfl
    rw [hcomp, List.map_id]
  · intro row hrow
    rcases List.mem_map.mp hrow with ⟨p, _, rfl⟩
    have hspec := asofMatch_spec tol p.1 (sortByKey Prod.fst right.rows)
      (pairwise_sortByKey Prod.fst right.rows)
    constructor
    · intro x hx
      obtain ⟨hmem, hle, hmax, htol⟩ := hspec.1 x hx
      exact ⟨(mem_sortByKey Prod.fst x right.rows).mp hmem, hle,
        fun q hq hql => hmax q ((mem_sortByKey Prod.fst q right.rows).mpr hq) hql,
        htol⟩
    · intro hnone q hq hql
      exact hspec.2 hnone q ((mem_sortByKey Prod.fst q right.rows).mpr hq) hql

/-- Witness for C1: grid row at `t = 5`; auxiliary rows at `3` and `10`.
The join attaches the row at `3` — the most recent one at or before `5`
(never the future row at `10`). -/
theorem asof_join_most_recent_C1_witness :
    (([((5 : Int), (0 : Nat), some ((3 : Int), (7 : Int)))].map
        (fun row => (row.1, row.2.1))) =
      F1.sortByKey Prod.fst [((5 : Int), (0 : Nat))])
    ∧ (((3 : Int), (7 : Int)) ∈ [((3 : Int), (7 : Int)), (10, 9)]
        ∧ (3 : Int) ≤ 5
        ∧ (∀ q ∈ [((3 : Int), (7 : Int)), (10, 9)], q.1 ≤ 5 → q.1 ≤ 3)
        ∧ ∀ d : Int, (none : Option Int) = some d → (5 : Int) - 3 ≤ d) := by
  have h := F1.asof_join_most_recent_C1 ⟨true, [((5 : Int), (0 : Nat))]⟩
    ⟨true, [((3 : Int), (7 : Int)), (10, 9)]⟩ none
    [(5, 0, some (3, 7))] rfl
  exact ⟨h.1, (h.2 (5, 0, some (3, 7)) (by simp)).1 (3, 7) rfl⟩

/-- C5 counterexample: a left frame whose (datetime-typed) timestamp
column is not chronologically ordered does NOT make `asof_join` raise —
lines 38-39 sort both inputs before anything else, and the join
produces a normal result. -/
theorem asof_join_unsorted_counterexample_C5 :
    F1.isSortedByTs [((2 : Int), (0 : Nat)), (1, 0)] = false
    ∧ F1.asof_join ⟨true, [((2 : Int), (0 : Nat)), (1, 0)]⟩
        ⟨true, [((0 : Int), (5 : Int))]⟩ none =
        Except.ok [(1, 0, some (0, 5)), (2, 0, some (0, 5))] := by
  exact ⟨by decide, rfl⟩

theorem sortByKey_idem {α β : Type} [LinearOrder β] (key : α → β) (l : List α) :
    sortByKey key (sortByKey key l) = sortByKey key l :=
  sortByKey_of_pairwise key _ (pairwise_sortByKey key l)

/-- C5 (amended): `asof_join` raises an input error exactly when either
side's timestamp column is not datetime-typed; it never rejects
out-of-order input — both sides are sorted internally before matching,
so pre-sorting either input changes nothing. -/
theorem asof_join_validation_C5 {α β : Type} (left : Frame α)
    (right : Frame β) (tol : Option Int) :
    ((∃ e, asof_join left right tol = Except.error e) ↔
      (left.isDatetime = false ∨ right.isDatetime = false))
    ∧ asof_join ⟨left.isDatetime, sortByKey Prod.fst left.rows⟩ right tol =
        asof_join left right tol
    ∧ asof_join left ⟨right.isDatetime, sortByKey Prod.fst right.rows⟩ tol =
        asof_join left right tol := by
  refine ⟨⟨?_, ?_⟩, ?_, ?_⟩
  · rintro ⟨e, he⟩
    by_contra hcon
    push_neg at hcon
    obtain ⟨hl, hr⟩ := hcon
    rw [asof_join, if_neg hl, if_neg hr] at he
    simp at he
  · rintro (hl | hr)
    · exact ⟨_, by rw [asof_join, if_pos hl]⟩
    · by_cases hl : left.isDatetime = false
      · exact ⟨_, by rw [asof_join, if_pos hl]⟩
      · exact ⟨_, by rw [asof_join, if_neg hl, if_pos hr]⟩
  · by_cases hl : left.isDatetime = false
    · rw [asof_join, asof_join, if_pos hl, if_pos hl]
    · by_cases hr : right.isDatetime = false
      · rw [asof_join, asof_join, if_neg hl, if_neg hl, if_pos hr, if_pos hr]
      · rw [asof_join, asof_join, if_neg hl, if_neg hl, if_neg hr, if_neg hr,
          asof_join_core, asof_join_core, sortByKey_idem]
  · by_cases hl : left.isDatetime = false
    · rw [asof_join, asof_join, if_pos hl, if_pos hl]
    · by_cases hr : right.isDatetime = false
      · rw [asof_join, asof_join, if_neg hl, if_neg hl, if_pos hr, if_pos hr]
      · rw [asof_join, asof_join, if_neg hl, if_neg hl, if_neg hr, if_neg hr,
          asof_join_core, asof_join_core, sortByKey_idem]

/-- Witness for C5 (amended): a non-datetime left timestamp column does
raise. -/
theorem asof_join_validation_C5_witness :
    ∃ e, F1.asof_join ⟨false, [((1 : Int), (0 : Nat))]⟩
        ⟨true, ([] : List (Int × Int))⟩ none = Except.error e :=
  (F1.asof_join_validation_C5 ⟨false, [((1 : Int), (0 : Nat))]⟩
    ⟨true, ([] : List (Int × Int))⟩ none).1.mpr (Or.inl rfl)

theorem sessionChunk_ok {β : Type} (left : Frame Nat) (right : Frame (Nat × β))
    (tol : Option Int) (s : Nat)
    (hl : left.isDatetime = true) (hr : right.isDatetime = true) :
    sessionChunk left right tol s =
      Except.ok (sessionChunkTotal left right tol s) := by
  simp only [sessionChunk, sessionChunkTotal]
  split
  · rfl
  · simp [asof_join, hl, hr]

theorem sessionConcat_ok {β : Type} (left : Frame Nat) (right : Frame (Nat × β))
    (tol : Option Int)
    (hl : left.isDatetime = true) (hr : right.isDatetime = true) :
    ∀ ss : List Nat, sessionConcat left right tol ss =
      Except.ok (ss.flatMap (fun s => sessionChunkTotal left right tol s)) := by
  intro ss
  induction ss with
  | nil => simp [sessionConcat]
  | cons s rest ih =>
    show (do
      let c ← sessionChunk left right tol s
      let rest' ← sessionConcat left right tol rest
      Except.ok (c ++ rest')) =
        Except.ok ((s :: rest).flatMap (fun u => sessionChunkTotal left right tol u))
    rw [sessionChunk_ok left right tol s hl hr, ih]
    rfl

theorem sessionChunkTotal_session {β : Type} (left : Frame Nat)
    (right : Frame (Nat × β)) (tol : Option Int) (s : Nat) :
    ∀ row ∈ sessionChunkTotal left right tol s, row.2.1 = s := by
  intro row hrow
  simp only [sessionChunkTotal] at hrow
  split at hrow
  · rcases List.mem_map.mp hrow with ⟨p, hp, rfl⟩
    exact of_decide_eq_true (List.mem_filter.mp hp).2
  · have hmem := asof_join_core_fst_mem _ _ tol row hrow
    exact of_decide_eq_true (List.mem_filter.mp hmem).2

theorem sessionChunkTotal_empty {β : Type} (left : Frame Nat)
    (right : Frame (Nat × β)) (tol : Option Int) (s : Nat)
    (h : right.rows.filter (fun p => decide (p.2.1 = s)) = []) :
    sessionChunkTotal left right tol s =
      (left.rows.filter (fun p => decide (p.2 = s))).map
        (fun p => (p.1, p.2, none)) := by
  simp [sessionChunkTotal, h]

/-- C6: the per-entity as-of join of entity `s` depends only on auxiliary
rows whose entity id equals `s` — two right frames agreeing on their
session-`s` rows produce identical session-`s` output rows (two-run
noninterference), and an entity with zero auxiliary rows gets null in
every auxiliary column regardless of the other entities' data. -/
theorem asof_join_by_session_noninterference_C6 {β : Type} (left : Frame Nat)
    (r1 r2 : Frame (Nat × β)) (tol : Option Int) (s : Nat)
    (hl : left.isDatetime = true) (h1 : r1.isDatetime = true)
    (h2 : r2.isDatetime = true)
    (hsame : r1.rows.filter (fun p => decide (p.2.1 = s)) =
      r2.rows.filter (fun p => decide (p.2.1 = s))) :
    ∃ o1 o2,
      asof_join_by_session left r1 tol = Except.ok o1
      ∧ asof_join_by_session left r2 tol = Except.ok o2
      ∧ o1.filter (fun row => decide (row.2.1 = s)) =
          o2.filter (fun row => decide (row.2.1 = s))
      ∧ (r1.rows.filter (fun p => decide (p.2.1 = s)) = [] →
          ∀ row ∈ o1, row.2.1 = s → row.2.2 = none) := by
  refine ⟨_, _, sessionConcat_ok left r1 tol hl h1 (sessionsOf left),
    sessionConcat_ok left r2 tol hl h2 (sessionsOf left), ?_, ?_⟩
  · rw [List.filter_flatMap, List.filter_flatMap]
    apply List.flatMap_congr
    intro s' _
    by_cases hss : s' = s
    · subst hss
      rw [List.filter_eq_self.mpr
          (fun a ha => decide_eq_true (sessionChunkTotal_session left r1 tol s' a ha)),
        List.filter_eq_self.mpr
          (fun a ha => decide_eq_true (sessionChunkTotal_session left r2 tol s' a ha))]
      simp only [sessionChunkTotal, hsame]
    · rw [List.filter_eq_nil_iff.mpr (fun a ha hdec => hss (by
          rw [← sessionChunkTotal_session left r1 tol s' a ha]
          exact of_decide_eq_true hdec)),
        List.filter_eq_nil_iff.mpr (fun a ha hdec => hss (by
          rw [← sessionChunkTotal_session left r2 tol s' a ha]
          exact of_decide_eq_true hdec))]
  · intro hempty row hrow hrows
    rcases List.mem_flatMap.mp hrow with ⟨s', _, hrowc⟩
    have hsess := sessionChunkTotal_session left r1 tol s' row hrowc
    have hss : s' = s := by rw [← hsess, hrows]
    subst hss
    rw [sessionChunkTotal_empty left r1 tol s' hempty] at hrowc
    rcases List.mem_map.mp hrowc with ⟨p, _, rfl⟩
    rfl

/-- Witness for C6: two grid rows in sessions 1 and 2; session 1 has no
auxiliary rows in either run while session 2's auxiliary data differs
between the runs — the session-1 output is all-null and identical. -/
theorem asof_join_by_session_noninterference_C6_witness :
    ∃ o1 o2,
      F1.asof_join_by_session ⟨true, [((0 : Int), (1 : Nat)), (0, 2)]⟩
          ⟨true, [((-5 : Int), ((2 : Nat), (42 : Int)))]⟩ none = Except.ok o1
      ∧ F1.asof_join_by_session ⟨true, [((0 : Int), (1 : Nat)), (0, 2)]⟩
          ⟨true, [((-5 : Int), ((2 : Nat), (42 : Int))), (-3, (2, 99))]⟩ none =
          Except.ok o2
      ∧ o1.filter (fun row => decide (row.2.1 = 1)) =
          o2.filter (fun row => decide (row.2.1 = 1))
      ∧ ([((-5 : Int), ((2 : Nat), (42 : Int)))].filter
            (fun p => decide (p.2.1 = 1)) = [] →
          ∀ row ∈ o1, row.2.1 = 1 → row.2.2 = none) :=
  F1.asof_join_by_session_noninterference_C6
    ⟨true, [((0 : Int), (1 : Nat)), (0, 2)]⟩
    ⟨true, [((-5 : Int), ((2 : Nat), (42 : Int)))]⟩
    ⟨true, [((-5 : Int), ((2 : Nat), (42 : Int))), (-3, (2, 99))]⟩
    none 1 rfl rfl rfl (by decide)

/-- C9: an alert fires at a grid point iff the predicted probability is
at least the threshold; the true-positive rate, false-positive rate and
precision are exactly 0 whenever the respective denominator is 0; and
the reported lead time is the median time-to-event over the
true-positive points only — null (`none`, not 0 and not NaN) whenever
there are none. -/
theorem analyze_alert_policy_edges_C9 (rows : List ARow) (th : ℚ) :
    (∀ r : ARow, alertFlag th r = true ↔ th ≤ r.prob)
    ∧ (tpCount rows th + fnCount rows th = 0 →
        (analyze_alert_policy_at rows th).true_positive_rate = 0)
    ∧ (fpCount rows th + tnCount rows th = 0 →
        (analyze_alert_policy_at rows th).false_positive_rate = 0)
    ∧ (tpCount rows th + fpCount rows th = 0 →
        (analyze_alert_policy_at rows th).precision = 0)
    ∧ (tpRows rows th = [] →
        (analyze_alert_policy_at rows th).median_lead_time_s = none)
    ∧ (tpRows rows th ≠ [] →
        (analyze_alert_policy_at rows th).median_lead_time_s =
          some (median ((tpRows rows th).map (fun r => r.tte))))
    ∧ (analyze_alert_policy rows none =
        ([1/10, 2/10, 3/10, 4/10, 5/10, 6/10, 7/10] : List ℚ).map
          (fun t => analyze_alert_policy_at rows t)) := by
  refine ⟨fun r => by simp [alertFlag], ?_, ?_, ?_, ?_, ?_, rfl⟩
  · intro h0
    simp only [analyze_alert_policy_at]
    rw [if_neg (by omega)]
  · intro h0
    simp only [analyze_alert_policy_at]
    rw [if_neg (by omega)]
  · intro h0
    simp only [analyze_alert_policy_at]
    rw [if_neg (by omega)]
  · intro h0
    simp only [analyze_alert_policy_at]
    rw [if_pos (List.isEmpty_iff.mpr h0)]
  · intro h0
    simp only [analyze_alert_policy_at]
    rw [if_neg (fun hcon => h0 (List.isEmpty_iff.mp hcon))]

/-- Witness for C9: at threshold 1 with a single below-threshold row no
alert fires, so the true-positive and precision denominators (and, with
a label-1 row, the false-positive denominator) are 0, each rate is
reported as exactly 0 and the lead time is null; a run with one true
positive reports the median of its time-to-event. -/
theorem analyze_alert_policy_edges_C9_witness :
    ((analyze_alert_policy_at [⟨0, 0, 7, 100⟩] 1).true_positive_rate = 0)
    ∧ ((analyze_alert_policy_at [⟨0, 0, 7, 100⟩] 1).precision = 0)
    ∧ ((analyze_alert_policy_at [⟨0, 0, 7, 100⟩] 1).median_lead_time_s = none)
    ∧ ((analyze_alert_policy_at [⟨0, 1, 7, 100⟩] 1).false_positive_rate = 0)
    ∧ ((analyze_alert_policy_at [⟨2, 1, 7, 120⟩] 1).median_lead_time_s =
        some (median ((tpRows [⟨2, 1, 7, 120⟩] 1).map (fun r => r.tte)))) := by
  refine ⟨?_, ?_, ?_, ?_, ?_⟩
  · exact (analyze_alert_policy_edges_C9 [⟨0, 0, 7, 100⟩] 1).2.1 (by decide)
  · exact (analyze_alert_policy_edges_C9 [⟨0, 0, 7, 100⟩] 1).2.2.2.1 (by decide)
  · exact (analyze_alert_policy_edges_C9 [⟨0, 0, 7, 100⟩] 1).2.2.2.2.1 (by decide)
  · exact (analyze_alert_policy_edges_C9 [⟨0, 1, 7, 100⟩] 1).2.2.1 (by decide)
  · exact (analyze_alert_policy_edges_C9 [⟨2, 1, 7, 120⟩] 1).2.2.2.2.2.1
      (by decide)

end F1
